import Mathlib

/-!
# dwmstatus: scheduler, merge and publish steps

A shallow embedding of `src/dwmstatus.c`.

* A byte is a `Char`, a `char` array is a `List Char`; the C string it holds
  is the part before the first NUL byte (`cstr`).
* The global arrays `fields`, `states` and `pollfds` are functions from the
  index, read at `0 .. FCNT-1`.
* A pipe is the list of bytes queued in it.  It is opened with `O_NONBLOCK`,
  so a `read` of an empty pipe fails with `EAGAIN`.
* What the operating system decides (the value `fork` returns, what a field's
  `run` returns and prints, what `waitpid` collects, the clock, the results of
  the Xlib calls) is an argument of the function that consumes it.
* Calls whose order matters (`run_field`, `clear_pipe` on a watch descriptor,
  `fork`) are recorded in a trace.
-/

namespace Dwmstatus

/-! ## Constants -/

/-- The terminating byte of a C string. -/
def NUL : Char := Char.ofNat 0

/-- The line separator, written `'\n'` in the source. -/
def NL : Char := Char.ofNat 10

/-- The macro `ONE_THOUSAND`, defined as `(1000)`. -/
def ONE_THOUSAND : Int := 1000

/-- The macro `BUFSIZE`, defined as `4096`. -/
def BUFSIZE : Nat := 4096

/-- The value of `PIPE_BUF` in the Linux `<limits.h>`. -/
def PIPE_BUF : Nat := 4096

/-- The number of values of a `size_t` (64 bits). -/
def SIZE_MOD : Nat := 2 ^ 64

/-- The string literal `"<error>"`. -/
def error_str : List Char := ['<', 'e', 'r', 'r', 'o', 'r', '>']

/-- The value of `EAGAIN` in the Linux `<errno.h>`. -/
def EAGAIN : Int := 11

/-- On Linux `EWOULDBLOCK` is the same number as `EAGAIN`. -/
def EWOULDBLOCK : Int := 11

/-! ## C strings -/

/-- The C string held in a `char` array: the bytes before the first NUL. -/
def cstr (a : List Char) : List Char := a.takeWhile (fun c => c != NUL)

/-- The `strcpy(dst, src)` call for a literal `src`: the bytes of `src` and a
NUL overwrite the start of `dst`. -/
def strcpy (dst src : List Char) : List Char :=
  src ++ NUL :: dst.drop (src.length + 1)

/-- The `memset(a, 0, sizeof(a))` call on an array of `n` bytes. -/
def memset_zero (n : Nat) : List Char := List.replicate n NUL

/-- Unsigned subtraction of two `size_t` values. -/
def size_sub (a b : Nat) : Nat := (a + SIZE_MOD - b % SIZE_MOD) % SIZE_MOD

/-- The `strncat(dest, src, n)` call on the strings held by `dest` and `src`:
at most `n` bytes of `src` are appended to `dest`.  The call returns `dest`
itself, so the second component, the returned pointer as an offset from
`dest`, is `0`. -/
def strncat (dest src : List Char) (n : Nat) : List Char × Nat :=
  (dest ++ src.take n, 0)

/-- The `index(s, c)` call for a byte `c` other than NUL: the offset of the
first `c` in the string `s`, `none` for a null pointer. -/
def index : List Char → Char → Option Nat
  | [], _ => none
  | x :: xs, c => if x = c then some 0 else (index xs c).map (· + 1)

/-! ## Data model -/

/-- One call of a field's `run`: the value it returns and the bytes it prints
on standard output. -/
structure RunResult where
  ret : Int
  out : List Char
  deriving DecidableEq, Repr

/-- The `struct field` record.  A function pointer is `none` when it is null;
`run` is given by what the call does, `init` by the descriptor it returns. -/
structure Field where
  run : Option RunResult
  init : Option Int
  poll : Int
  synchronous : Int
  deriving DecidableEq, Repr

/-- The `struct state` record.  `pipe` holds the bytes queued in the pipe
whose two ends are `pipe[PIPE_READ]` and `pipe[PIPE_WRITE]`. -/
structure State where
  pipe : List Char
  buf : List Char
  pid : Int
  deriving DecidableEq, Repr

/-- The `struct pollfd` record. -/
structure Pollfd where
  fd : Int
  events : Int
  revents : Int
  deriving DecidableEq, Repr

/-! ## cat_bufs -/

/-- The inner `for` loop of `cat_bufs` on one field: `s` is the rest of the
field's string, the pair is `buf` and `w`.  Each pass cuts the string at the
first line separator (`*e = '\0'`), appends the piece before it with
`strncat(buf, s, len - w)`, stores the returned pointer minus `buf` in `w`, and
moves `s` behind the separator.  A pass consumes at least one byte of `s`, so
`s.length` passes are always enough. -/
def cat_lines (len : Nat) : Nat → List Char → List Char × Nat → List Char × (List Char × Nat)
  | 0, s, bw => (s, bw)
  | fuel + 1, s, bw =>
    match index s NL with
    | none => (s, bw)
    | some e =>
      let r := strncat bw.1 (s.take e) (size_sub len bw.2)
      cat_lines len fuel (s.drop (e + 1)) (r.1, r.2)

/-- The body of the outer `for` loop of `cat_bufs` for one field buffer. -/
def cat_field (len : Nat) (fbuf : List Char) (bw : List Char × Nat) : List Char × Nat :=
  let s := cstr fbuf
  let l := cat_lines len s.length s bw
  strncat l.2.1 l.1 (size_sub len l.2.2)

/-- The function `cat_bufs(buf, len)`: the string left in `buf`.  The bytes are
collected in a list without a capacity, so the result shows every byte the
calls to `strncat` write from `buf[0]` on. -/
def cat_bufs (FCNT : Nat) (states : Nat → State) (len : Nat) : List Char :=
  ((List.range FCNT).foldl (fun bw i => cat_field len (states i).buf bw) ([], 0)).1

/-- The sum of the lengths of the strings held in the field buffers. -/
def total_len (FCNT : Nat) (states : Nat → State) : Nat :=
  ((List.range FCNT).map (fun i => (cstr (states i).buf).length)).sum

/-- What one field contributes when every `strncat` is bounded by `n`: `cur`
is the piece read so far; each piece is cut to `n` bytes and the separators
between pieces are dropped. -/
def merge_lines (n : Nat) : List Char → List Char → List Char
  | [], cur => cur.take n
  | c :: cs, cur =>
    if c = NL then cur.take n ++ merge_lines n cs [] else merge_lines n cs (cur ++ [c])

/-! ## Pipes -/

/-- What `read(fd, buf, n)` does on a field's pipe: the value returned, the
`errno` left by a failing call, the bytes stored in the array and the bytes
still queued. -/
structure ReadResult where
  r : Int
  errno : Int
  bytes : List Char
  rest : List Char
  deriving DecidableEq, Repr

/-- The `read` call on a non-blocking pipe holding `pipe`: the first `n` queued
bytes, or `-1` with `errno = EAGAIN` when nothing is queued. -/
def sys_read (pipe : List Char) (n : Nat) : ReadResult :=
  if pipe = [] then { r := -1, errno := EAGAIN, bytes := [], rest := [] }
  else { r := (pipe.take n).length, errno := 0, bytes := pipe.take n, rest := pipe.drop n }

/-- The loop of `clear_pipe`: read `PIPE_BUF` bytes at a time while `read`
returns a positive count.  Such a pass removes a byte, so `pipe.length` passes
are always enough. -/
def clear_pipe_loop : Nat → List Char → List Char
  | 0, pipe => pipe
  | fuel + 1, pipe =>
    if (sys_read pipe PIPE_BUF).r > 0 then clear_pipe_loop fuel (sys_read pipe PIPE_BUF).rest
    else pipe

/-- The function `clear_pipe(fd)` on a field's pipe: the bytes left queued. -/
def clear_pipe (pipe : List Char) : List Char := clear_pipe_loop pipe.length pipe

/-- The bytes a `read` delivers are stored at the start of the array. -/
def store (buf bytes : List Char) : List Char := bytes ++ buf.drop bytes.length

/-- The step shared by `run_field` and `handle_sigchld`: `memset` the field
buffer, `read` up to `sizeof(buf)-1` bytes of the pipe into it, and write
`"<error>"` when `read` fails with an `errno` other than `EAGAIN` and
`EWOULDBLOCK`.  The result is the new buffer and the bytes left in the pipe. -/
def read_field (pipe : List Char) : List Char × List Char :=
  let buf := memset_zero PIPE_BUF
  let rd := sys_read pipe (PIPE_BUF - 1)
  let buf := store buf rd.bytes
  let buf := if rd.r < 0 ∧ rd.errno ≠ EAGAIN ∧ rd.errno ≠ EWOULDBLOCK
    then strcpy buf error_str else buf
  (buf, rd.rest)

/-! ## Processes -/

/-- The wait status of a child that ends by `exit(r)`: the low 8 bits of `r`,
shifted left by 8. -/
def exit_status (r : Int) : Int := (r % 256) * 256

/-- The macro `WEXITSTATUS(status)`, that is `(status & 0xff00) >> 8`. -/
def WEXITSTATUS (status : Int) : Int := (status / 256) % 256

/-- The calls recorded in the trace. -/
inductive Ev
  | run_field (i : Nat)
  | clear_pipe (fd : Int)
  | fork (i : Nat)
  deriving DecidableEq, Repr

/-- One process running the program: the array `states`, the trace of its
calls, and the exit code once it has called `exit`. -/
structure Proc where
  states : Nat → State
  trace : List Ev
  exited : Option Int

/-- The function `run_field(i)`.  `fork i` is the value `fork()` returns to
this process when called for field `i`: positive in the parent, negative on
failure, `0` in the child, which ends in `exit(r)`.  Bytes printed on standard
output count as queued in the pipe that `dup2` has put there; in the child the
`"<error>"` printed last reaches the pipe when `exit` flushes the stream.  What
a child queues in the pipe after the `fork` is not part of the parent's
result. -/
def run_field (fields : Nat → Field) (fork : Nat → Int) (i : Nat) (w : Proc) : Proc :=
  let w := { w with trace := w.trace ++ [Ev.run_field i] }
  match (fields i).run with
  | none => w
  | some run =>
    let s := w.states i
    if s.pid > 0 then w
    else if (fields i).synchronous ≠ 0 then
      let pipe := clear_pipe s.pipe
      let pipe := pipe ++ run.out
      if run.ret ≠ 0 then
        let s := { s with pipe := pipe, buf := strcpy s.buf error_str }
        { w with states := Function.update w.states i s }
      else
        let rd := read_field pipe
        let s := { s with pipe := rd.2, buf := rd.1 }
        { w with states := Function.update w.states i s }
    else
      let pid := fork i
      let w := { w with trace := w.trace ++ [Ev.fork i] }
      if pid > 0 then
        let s := { s with pid := pid }
        { w with states := Function.update w.states i s }
      else if pid < 0 then
        let s := { s with pid := pid, buf := strcpy s.buf error_str }
        { w with states := Function.update w.states i s }
      else
        let pipe := clear_pipe s.pipe
        let pipe := pipe ++ run.out
        let pipe := if run.ret ≠ 0 then clear_pipe pipe ++ error_str else pipe
        let s := { s with pid := pid, pipe := pipe }
        { w with states := Function.update w.states i s, exited := some run.ret }

/-- The body of the `for` loop of `handle_sigchld` for one field, given the
`pid` and `status` that `waitpid` delivered. -/
def reap_field (pid status : Int) (s : State) : State :=
  if s.pid ≠ pid then s
  else
    let s := { s with pid := 0 }
    if WEXITSTATUS status = 0 then
      let rd := read_field s.pipe
      { s with pipe := rd.2, buf := rd.1 }
    else
      { s with buf := strcpy s.buf error_str }

/-- The `for` loop of `handle_sigchld` over `i = 0 .. FCNT-1`, for one child
that `waitpid` delivered. -/
def reap_loop (FCNT : Nat) (pid status : Int) (states : Nat → State) : Nat → State :=
  (List.range FCNT).foldl (fun st i => Function.update st i (reap_field pid status (st i))) states

/-- The function `handle_sigchld()`.  The list holds what the successive calls
`waitpid(-1, &status, WNOHANG)` return, as pairs of pid and status; the `while`
loop ends at the first pid that is not positive, or at the end of the list. -/
def handle_sigchld (FCNT : Nat) : List (Int × Int) → (Nat → State) → (Nat → State)
  | [], states => states
  | (pid, status) :: rest, states =>
    if pid > 0 then handle_sigchld FCNT rest (reap_loop FCNT pid status states)
    else states

/-! ## The trigger step of the main loop -/

/-- The body of the first `for` loop in the `for (;;)` loop of `main`. -/
def trigger_body (fields : Nat → Field) (pollfds : Nat → Pollfd) (fork : Nat → Int)
    (force_trigger poll_trigger : Int) (i : Nat) (w : Proc) : Proc :=
  if (w.states i).pid > 0 then w
  else if force_trigger ≠ 0 then run_field fields fork i w
  else if poll_trigger ≠ 0 ∧ (fields i).poll ≠ 0 then run_field fields fork i w
  else if (pollfds i).revents ≠ 0 then
    run_field fields fork i { w with trace := w.trace ++ [Ev.clear_pipe (pollfds i).fd] }
  else w

/-- The first `for` loop in the `for (;;)` loop of `main`, over
`i = 0 .. FCNT-1`.  A process that has called `exit` runs no further pass. -/
def trigger_fields (FCNT : Nat) (fields : Nat → Field) (pollfds : Nat → Pollfd)
    (fork : Nat → Int) (force_trigger poll_trigger : Int) (w : Proc) : Proc :=
  (List.range FCNT).foldl
    (fun w i => if w.exited.isSome then w
      else trigger_body fields pollfds fork force_trigger poll_trigger i w) w

/-- The indices of the `run_field` calls in a trace, in the order of the calls. -/
def run_calls (t : List Ev) : List Nat :=
  t.filterMap (fun e => match e with
    | Ev.run_field i => some i
    | _ => none)

/-! ## set_status -/

/-- The calls made to the display. -/
inductive XCall
  | XStoreName (name : List Char)
  | XFlush
  deriving DecidableEq, Repr

/-- The static variables of `set_status`. -/
structure Publisher where
  prev_buf : List Char
  prev_buf_set : Int
  deriving DecidableEq, Repr

/-- The values the two Xlib calls return. -/
structure XResult where
  store_name : Int
  flush : Int
  deriving DecidableEq, Repr

/-- The outcome of `set_status`: the value returned, the static variables and
the display calls made. -/
structure StatusResult where
  ret : Int
  pub : Publisher
  calls : List XCall
  deriving DecidableEq, Repr

/-- The `strncpy(dst, src, n)` call: the string of `src`, padded with NUL
bytes to `n` bytes and cut to `n` bytes, overwrites the start of `dst`. -/
def strncpy (dst src : List Char) (n : Nat) : List Char :=
  ((cstr src ++ List.replicate (n - (cstr src).length) NUL).take n) ++ dst.drop n

/-- The function `set_status(dpy, root, buf)`. -/
def set_status (x : XResult) (st : Publisher) (buf : List Char) : StatusResult :=
  let st : Publisher :=
    if st.prev_buf_set = 0 then { prev_buf := st.prev_buf.set 0 NUL, prev_buf_set := 1 }
    else st
  if cstr buf = cstr st.prev_buf then { ret := 0, pub := st, calls := [] }
  else
    let st := { st with prev_buf := strncpy st.prev_buf buf BUFSIZE }
    if x.store_name < 0 then { ret := -1, pub := st, calls := [XCall.XStoreName (cstr buf)] }
    else if x.flush < 0 then
      { ret := -1, pub := st, calls := [XCall.XStoreName (cstr buf), XCall.XFlush] }
    else { ret := 0, pub := st, calls := [XCall.XStoreName (cstr buf), XCall.XFlush] }

/-- The strings handed to `XStoreName` in a list of display calls. -/
def store_name_calls (t : List XCall) : List (List Char) :=
  t.filterMap (fun c => match c with
    | XCall.XStoreName name => some name
    | XCall.XFlush => none)

/-! ## get_ms_until_next_minute -/

/-- The two values `get_ms_until_next_minute` reads from the clock:
`now->tm_sec` and `tv.tv_usec`. -/
structure Clock where
  tm_sec : Int
  tv_usec : Int
  deriving DecidableEq, Repr

/-- The function `get_ms_until_next_minute()`; `none` stands for a failing
`gettimeofday` or `localtime`.  With `tm_sec` in `0..60` and `tv_usec` in
`0..999999` no step leaves the range of `int`. -/
def get_ms_until_next_minute (now : Option Clock) : Int :=
  match now with
  | none => 60 * ONE_THOUSAND
  | some t => ((60 - t.tm_sec) * ONE_THOUSAND) - (t.tv_usec.tdiv ONE_THOUSAND)

/-! ## The calls of one pass -/

/-- The calls that `run_field(i)` records for a field with record `f` and
state `s`. -/
def run_field_events (f : Field) (s : State) (i : Nat) : List Ev :=
  Ev.run_field i ::
    (match f.run with
      | none => []
      | some _ => if s.pid > 0 then [] else if f.synchronous ≠ 0 then [] else [Ev.fork i])

/-- The calls that the trigger step records for field `i`. -/
def body_events (fields : Nat → Field) (pollfds : Nat → Pollfd)
    (force_trigger poll_trigger : Int) (states : Nat → State) (i : Nat) : List Ev :=
  if (states i).pid > 0 then []
  else if force_trigger ≠ 0 then run_field_events (fields i) (states i) i
  else if poll_trigger ≠ 0 ∧ (fields i).poll ≠ 0 then run_field_events (fields i) (states i) i
  else if (pollfds i).revents ≠ 0 then
    Ev.clear_pipe (pollfds i).fd :: run_field_events (fields i) (states i) i
  else []

/-! ## Sample inputs -/

/-- Three field buffers: `"a\nb\n"`, `"c"` and the empty string. -/
def sample_bufs (i : Nat) : State :=
  if i = 0 then { pipe := [], buf := ['a', NL, 'b', NL, NUL], pid := 0 }
  else if i = 1 then { pipe := [], buf := ['c', NUL], pid := -1 }
  else { pipe := [], buf := [NUL], pid := -1 }

/-- The buffers of `sample_bufs` except for the first, which holds `"a\nb"`. -/
def sample_bufs_stripped (i : Nat) : State :=
  if i = 0 then { pipe := [], buf := ['a', NL, 'b', NUL], pid := 0 } else sample_bufs i

/-- Three field buffers that do not fit together: 4095 bytes `'a'`, then
`" Vol 42%"`, then the empty string. -/
def long_bufs (i : Nat) : State :=
  if i = 0 then { pipe := [], buf := List.replicate 4095 'a' ++ [NUL], pid := 0 }
  else if i = 1 then
    { pipe := [], buf := [' ', 'V', 'o', 'l', ' ', '4', '2', '%', NUL], pid := -1 }
  else { pipe := [], buf := [NUL], pid := -1 }

/-- The table `fields` of `config.def.h` (mail, volume, date), each `run`
given by one possible successful call. -/
def config_fields (i : Nat) : Field :=
  if i = 0 then
    { run := some { ret := 0, out := ['m', 'a', 'i', 'l', ':', ' ', '2', NL] },
      init := some 5, poll := 0, synchronous := 0 }
  else if i = 1 then
    { run := some { ret := 0, out := [' ', 'V', 'o', 'l', ' ', '4', '2', '%', NL] },
      init := some 6, poll := 0, synchronous := 1 }
  else
    { run := some { ret := 0, out := [' ', 'S', 'u', 'n'] }, init := none, poll := 1,
      synchronous := 1 }

/-- The table `fields` of `config.def.h` with every `run` failing: the two
shell commands with the value 256 that `system` returns for exit code 1, whose
low 8 bits are zero, and `date_run` with -1. -/
def failing_fields (i : Nat) : Field :=
  if i = 0 then
    { run := some { ret := 256, out := [] }, init := some 5, poll := 0, synchronous := 0 }
  else if i = 1 then
    { run := some { ret := 256, out := [] }, init := some 6, poll := 0, synchronous := 1 }
  else
    { run := some { ret := -1, out := [] }, init := none, poll := 1, synchronous := 1 }

/-- The array `states` as `initialize_fields` leaves it. -/
def initial_states (_ : Nat) : State := { pipe := [], buf := [NUL], pid := -1 }

/-- The process at the start of a pass: nothing traced, not exited. -/
def initial_proc : Proc := { states := initial_states, trace := [], exited := none }

/-- The array `states` with the child 1234 of field 0 running and `"mail: 2\n"`
queued in its pipe. -/
def running_states (i : Nat) : State :=
  if i = 0 then
    { pipe := ['m', 'a', 'i', 'l', ':', ' ', '2', NL], buf := [NUL], pid := 1234 }
  else initial_states i

/-- A `pollfds` array in which only the watch descriptor 6 of field 1 has
signalled readiness. -/
def sample_pollfds (i : Nat) : Pollfd :=
  if i = 0 then { fd := 5, events := 1, revents := 0 }
  else if i = 1 then { fd := 6, events := 1, revents := 1 }
  else { fd := -1, events := 0, revents := 0 }

/-- A `pollfds` array in which no watch descriptor has signalled readiness. -/
def quiet_pollfds (i : Nat) : Pollfd :=
  if i = 0 then { fd := 5, events := 1, revents := 0 }
  else if i = 1 then { fd := 6, events := 1, revents := 0 }
  else { fd := -1, events := 0, revents := 0 }

/-- In the parent every `fork` returns the pid 1234. -/
def fork_ok (_ : Nat) : Int := 1234

/-- Every `fork` fails. -/
def fork_fails (_ : Nat) : Int := -1

/-- In the child `fork` returns 0. -/
def fork_child (_ : Nat) : Int := 0

/-- The process at the start of a pass while the child of field 0 runs. -/
def running_proc : Proc := { states := running_states, trace := [], exited := none }

/-! ## Lemmas on cat_bufs -/

theorem index_eq_none {s : List Char} {c : Char} (h : index s c = none) : c ∉ s := by
  induction s with
  | nil => simp
  | cons x xs ih =>
    unfold index at h
    by_cases hx : x = c
    · simp [hx] at h
    · simp only [hx, if_false, Option.map_eq_none'] at h
      simp only [List.mem_cons, not_or]
      exact ⟨fun hc => hx hc.symm, ih h⟩

theorem index_eq_some {s : List Char} {c : Char} {e : Nat} (h : index s c = some e) :
    c ∉ s.take e ∧ s = s.take e ++ c :: s.drop (e + 1) := by
  induction s generalizing e with
  | nil => simp [index] at h
  | cons x xs ih =>
    unfold index at h
    by_cases hx : x = c
    · simp only [hx, if_true, Option.some.injEq] at h
      subst h
      simp [hx]
    · simp only [hx, if_false, Option.map_eq_some'] at h
      obtain ⟨k, hk, rfl⟩ := h
      obtain ⟨h1, h2⟩ := ih hk
      refine ⟨?_, ?_⟩
      · simp only [List.take_succ_cons, List.mem_cons, not_or]
        exact ⟨fun hc => hx hc.symm, h1⟩
      · simp only [List.take_succ_cons, List.drop_succ_cons, List.cons_append]
        rw [← h2]

theorem merge_lines_no_sep (n : Nat) (s cur : List Char) (h : NL ∉ s) :
    merge_lines n s cur = (cur ++ s).take n := by
  induction s generalizing cur with
  | nil => simp [merge_lines]
  | cons x xs ih =>
    simp only [List.mem_cons, not_or] at h
    have hx : ¬ x = NL := fun hc => h.1 hc.symm
    simp only [merge_lines, hx, if_false]
    rw [ih _ h.2]
    simp

theorem merge_lines_sep (n : Nat) (pre post cur : List Char) (h : NL ∉ pre) :
    merge_lines n (pre ++ NL :: post) cur = (cur ++ pre).take n ++ merge_lines n post [] := by
  induction pre generalizing cur with
  | nil => simp [merge_lines]
  | cons x xs ih =>
    simp only [List.mem_cons, not_or] at h
    have hx : ¬ x = NL := fun hc => h.1 hc.symm
    have := ih (cur ++ [x]) h.2
    simpa [merge_lines, hx] using this

theorem size_sub_zero (len : Nat) : size_sub len 0 = len % SIZE_MOD := by
  simp [size_sub]

/-- The inner loop followed by the last `strncat`, when `w` is `0` on entry. -/
theorem cat_lines_spec (len fuel : Nat) (s buf : List Char) (h : s.length ≤ fuel) :
    (cat_lines len fuel s (buf, 0)).2.2 = 0 ∧
    (cat_lines len fuel s (buf, 0)).2.1 ++
        (cat_lines len fuel s (buf, 0)).1.take (len % SIZE_MOD) =
      buf ++ merge_lines (len % SIZE_MOD) s [] := by
  induction fuel generalizing s buf with
  | zero =>
    have hs : s = [] := List.length_eq_zero.mp (Nat.le_zero.mp h)
    subst hs
    simp [cat_lines, merge_lines]
  | succ fuel ih =>
    unfold cat_lines
    cases hi : index s NL with
    | none =>
      have hn := index_eq_none hi
      simp [merge_lines_no_sep _ _ _ hn]
    | some e =>
      obtain ⟨h1, h2⟩ := index_eq_some hi
      have hlen : (s.drop (e + 1)).length ≤ fuel := by
        simp only [List.length_drop]
        omega
      have := ih (s.drop (e + 1)) (buf ++ (s.take e).take (len % SIZE_MOD)) hlen
      simp only [strncat, size_sub_zero]
      refine ⟨this.1, ?_⟩
      rw [this.2]
      conv_rhs => rw [h2, merge_lines_sep _ _ _ _ h1]
      simp

theorem cat_field_spec (len : Nat) (fbuf buf : List Char) :
    cat_field len fbuf (buf, 0) = (buf ++ merge_lines (len % SIZE_MOD) (cstr fbuf) [], 0) := by
  have h := cat_lines_spec len (cstr fbuf).length (cstr fbuf) buf (Nat.le_refl _)
  unfold cat_field
  simp only [strncat, h.1, size_sub_zero]
  rw [h.2]

theorem cat_fold_spec (len : Nat) (states : Nat → State) (FCNT : Nat) :
    (List.range FCNT).foldl (fun bw i => cat_field len (states i).buf bw) ([], 0) =
      (((List.range FCNT).map
          (fun i => merge_lines (len % SIZE_MOD) (cstr (states i).buf) [])).flatten, 0) := by
  induction FCNT with
  | zero => simp
  | succ n ih =>
    rw [List.range_succ, List.foldl_append, ih]
    simp [cat_field_spec]

/-- The string `cat_bufs` builds, field by field. -/
theorem cat_bufs_eq_merge (FCNT : Nat) (states : Nat → State) (len : Nat) :
    cat_bufs FCNT states len =
      ((List.range FCNT).map
        (fun i => merge_lines (len % SIZE_MOD) (cstr (states i).buf) [])).flatten := by
  unfold cat_bufs
  rw [cat_fold_spec]

theorem merge_lines_fits (n : Nat) (s cur : List Char) (h : (cur ++ s).length ≤ n) :
    merge_lines n s cur = cur ++ s.filter (fun c => c != NL) := by
  induction s generalizing cur with
  | nil =>
    simp only [List.append_nil] at h
    simp [merge_lines, List.take_of_length_le h]
  | cons x xs ih =>
    simp only [List.length_append, List.length_cons] at h
    by_cases hx : x = NL
    · have h1 : ([] ++ xs).length ≤ n := by simp; omega
      have h2 : cur.length ≤ n := by omega
      simp [merge_lines, hx, ih [] h1, List.take_of_length_le h2]
    · have h1 : ((cur ++ [x]) ++ xs).length ≤ n := by simp; omega
      simp [merge_lines, hx, ih _ h1]

theorem merge_lines_trailing (n : Nat) (t cur : List Char) (k : Nat) :
    merge_lines n (t ++ List.replicate k NL) cur = merge_lines n t cur := by
  induction t generalizing cur with
  | nil =>
    induction k generalizing cur with
    | zero => simp
    | succ k ih =>
      have := ih []
      simp only [List.nil_append] at this
      simp [List.replicate_succ, merge_lines, this]
  | cons x xs ih =>
    by_cases hx : x = NL
    · simp [merge_lines, hx, ih]
    · simp [merge_lines, hx, ih]

theorem length_le_total_len (FCNT : Nat) (states : Nat → State) (i : Nat) (h : i < FCNT) :
    (cstr (states i).buf).length ≤ total_len FCNT states := by
  unfold total_len
  apply List.single_le_sum (fun _ _ => Nat.zero_le _)
  exact List.mem_map.mpr ⟨i, List.mem_range.mpr h, rfl⟩

/-- When every field's string is at most `len` bytes long, `cat_bufs` builds
the field strings in order, without their line separators. -/
theorem cat_bufs_eq_filter (FCNT : Nat) (states : Nat → State) (len : Nat)
    (hlen : len < SIZE_MOD) (h : ∀ i, i < FCNT → (cstr (states i).buf).length ≤ len) :
    cat_bufs FCNT states len =
      ((List.range FCNT).map
        (fun i => (cstr (states i).buf).filter (fun c => c != NL))).flatten := by
  rw [cat_bufs_eq_merge, Nat.mod_eq_of_lt hlen]
  congr 1
  apply List.map_congr_left
  intro i hi
  have := merge_lines_fits len (cstr (states i).buf) [] (by simpa using h i (List.mem_range.mp hi))
  simpa using this

theorem cstr_append_nul (s rest : List Char) (h : ∀ c ∈ s, c ≠ NUL) :
    cstr (s ++ NUL :: rest) = s := by
  unfold cstr
  rw [List.takeWhile_append_of_pos]
  · simp
  · intro c hc
    simpa using h c hc

/-! ## Theorems on cat_bufs -/

/-- C1, as stated, fails: with the buffers `"a\nb\n"`, `"c"` and `""` (5 bytes
in all, below `len = BUFSIZE`) the string built by `cat_bufs` is `"abc"`, not
the concatenation `"a\nb\nc"` of the buffers. -/
theorem cat_bufs_drops_separators :
    total_len 3 sample_bufs < BUFSIZE ∧
    cat_bufs 3 sample_bufs BUFSIZE = ['a', 'b', 'c'] ∧
    cat_bufs 3 sample_bufs BUFSIZE ≠
      ((List.range 3).map (fun i => cstr (sample_bufs i).buf)).flatten := by
  decide

/-- C1, amended: when the strings in the field buffers have a total length
below `len`, `cat_bufs(buf, len)` builds the concatenation of those strings in
field order with every line separator removed. -/
theorem cat_bufs_concat_without_separators (FCNT : Nat) (states : Nat → State) (len : Nat)
    (hlen : len < SIZE_MOD) (h : total_len FCNT states < len) :
    cat_bufs FCNT states len =
      ((List.range FCNT).map
        (fun i => (cstr (states i).buf).filter (fun c => c != NL))).flatten :=
  cat_bufs_eq_filter FCNT states len hlen
    (fun i hi => Nat.le_of_lt (Nat.lt_of_le_of_lt (length_le_total_len FCNT states i hi) h))

/-- Witness for C1, amended: the sample buffers merged into `BUFSIZE` bytes. -/
theorem cat_bufs_concat_without_separators_witness :
    BUFSIZE < SIZE_MOD ∧ total_len 3 sample_bufs < BUFSIZE ∧
    cat_bufs 3 sample_bufs BUFSIZE =
      ((List.range 3).map
        (fun i => (cstr (sample_bufs i).buf).filter (fun c => c != NL))).flatten :=
  ⟨by decide, by decide,
    cat_bufs_concat_without_separators 3 sample_bufs BUFSIZE (by decide) (by decide)⟩

/-- C2: when the string in field `i` of `states₁` is the string in field `i` of
`states₂` followed by `k` line separators, and all other fields hold the same
buffers, `cat_bufs` builds the same string from both, for every `len`. -/
theorem cat_bufs_strips_trailing_newlines (FCNT : Nat) (states₁ states₂ : Nat → State)
    (len i k : Nat)
    (hi : cstr (states₁ i).buf = cstr (states₂ i).buf ++ List.replicate k NL)
    (hothers : ∀ j, j ≠ i → (states₁ j).buf = (states₂ j).buf) :
    cat_bufs FCNT states₁ len = cat_bufs FCNT states₂ len := by
  rw [cat_bufs_eq_merge, cat_bufs_eq_merge]
  congr 1
  apply List.map_congr_left
  intro j _
  by_cases hj : j = i
  · subst hj
    rw [hi, merge_lines_trailing]
  · rw [hothers j hj]

/-- Witness for C2: `"a\nb\n"` against `"a\nb"` in the first field. -/
theorem cat_bufs_strips_trailing_newlines_witness :
    cstr (sample_bufs 0).buf = cstr (sample_bufs_stripped 0).buf ++ List.replicate 1 NL ∧
    cat_bufs 3 sample_bufs BUFSIZE = cat_bufs 3 sample_bufs_stripped BUFSIZE :=
  ⟨by decide,
    cat_bufs_strips_trailing_newlines 3 sample_bufs sample_bufs_stripped BUFSIZE 0 1
      (by decide)
      (fun j hj => by simp [sample_bufs_stripped, hj])⟩

/-- C10 on the code: every buffer of `long_bufs` holds at most `PIPE_BUF - 1`
bytes, and `cat_bufs` with `len = BUFSIZE` builds a string of 4103 bytes, more
than the `BUFSIZE - 1` that fit before the terminating NUL. -/
theorem cat_bufs_exceeds_len :
    (∀ i, i < 3 → (cstr (long_bufs i).buf).length ≤ PIPE_BUF - 1) ∧
    (cat_bufs 3 long_bufs BUFSIZE).length = 4103 ∧
    BUFSIZE - 1 < (cat_bufs 3 long_bufs BUFSIZE).length := by
  have h0 : cstr (long_bufs 0).buf = List.replicate 4095 'a' := by
    have : (long_bufs 0).buf = List.replicate 4095 'a' ++ NUL :: [] := rfl
    rw [this]
    apply cstr_append_nul
    intro c hc
    rw [List.eq_of_mem_replicate hc]
    decide
  have h1 : cstr (long_bufs 1).buf = [' ', 'V', 'o', 'l', ' ', '4', '2', '%'] := by decide
  have h2 : cstr (long_bufs 2).buf = [] := by decide
  have hall : ∀ i, i < 3 → (cstr (long_bufs i).buf).length ≤ BUFSIZE := by
    intro i hi
    interval_cases i
    · rw [h0, List.length_replicate]; decide
    · rw [h1]; simp [BUFSIZE]
    · rw [h2]; simp
  have hlen : (cat_bufs 3 long_bufs BUFSIZE).length = 4103 := by
    rw [cat_bufs_eq_filter 3 long_bufs BUFSIZE (by decide) hall]
    have hr : List.range 3 = [0, 1, 2] := by decide
    rw [hr]
    simp only [List.map_cons, List.map_nil, h0, h1, h2, List.flatten_cons, List.flatten_nil,
      List.length_append, List.filter_replicate]
    have ha : (('a' : Char) != NL) = true := by decide
    simp only [ha, if_true, List.length_replicate]
    decide
  refine ⟨?_, hlen, ?_⟩
  · intro i hi
    interval_cases i
    · rw [h0, List.length_replicate]; decide
    · rw [h1]; simp [PIPE_BUF]
    · rw [h2]; simp
  · rw [hlen]
    decide

/-! ## Theorems on get_ms_until_next_minute -/

/-- C9: for a local time with `tm_sec` in `0..59` and `tv_usec` in `0..999999`,
`get_ms_until_next_minute` returns the number `r` of milliseconds with
`R ≤ 1000 * r < R + 1000`, where `R` is the number of microseconds left until
the next minute; so `1 ≤ r ≤ 60000`, and `r` milliseconds do not end before the
boundary. -/
theorem get_ms_until_next_minute_rounds_up (t : Clock)
    (hs0 : 0 ≤ t.tm_sec) (hs1 : t.tm_sec ≤ 59)
    (hu0 : 0 ≤ t.tv_usec) (hu1 : t.tv_usec ≤ 999999) :
    60000000 - 1000000 * t.tm_sec - t.tv_usec ≤ 1000 * get_ms_until_next_minute (some t) ∧
    1000 * get_ms_until_next_minute (some t) <
      60000000 - 1000000 * t.tm_sec - t.tv_usec + 1000 ∧
    1 ≤ get_ms_until_next_minute (some t) ∧
    get_ms_until_next_minute (some t) ≤ 60000 := by
  simp only [get_ms_until_next_minute, ONE_THOUSAND]
  rw [Int.tdiv_eq_ediv hu0 (by decide)]
  omega

/-- Witness for C9: one microsecond before the minute ends the result is 1. -/
theorem get_ms_until_next_minute_rounds_up_witness :
    get_ms_until_next_minute (some { tm_sec := 59, tv_usec := 999999 }) = 1 ∧
    (60000000 - 1000000 * (59 : Int) - 999999 ≤
        1000 * get_ms_until_next_minute (some { tm_sec := 59, tv_usec := 999999 }) ∧
      1000 * get_ms_until_next_minute (some { tm_sec := 59, tv_usec := 999999 }) <
        60000000 - 1000000 * (59 : Int) - 999999 + 1000 ∧
      1 ≤ get_ms_until_next_minute (some { tm_sec := 59, tv_usec := 999999 }) ∧
      get_ms_until_next_minute (some { tm_sec := 59, tv_usec := 999999 }) ≤ 60000) :=
  ⟨by decide,
    get_ms_until_next_minute_rounds_up { tm_sec := 59, tv_usec := 999999 }
      (by decide) (by decide) (by decide) (by decide)⟩

/-! ## Theorems on set_status -/

theorem cstr_no_nul (a : List Char) : ∀ c ∈ cstr a, c ≠ NUL := by
  intro c hc
  have := List.mem_takeWhile_imp hc
  simpa using this

theorem cstr_strncpy (dst src : List Char) (n : Nat) (h : (cstr src).length < n) :
    cstr (strncpy dst src n) = cstr src := by
  unfold strncpy
  have hlen : (cstr src ++ List.replicate (n - (cstr src).length) NUL).length ≤ n := by
    simp only [List.length_append, List.length_replicate]
    omega
  rw [List.take_of_length_le hlen]
  obtain ⟨m, hm⟩ : ∃ m, n - (cstr src).length = m + 1 := ⟨n - (cstr src).length - 1, by omega⟩
  rw [hm, List.replicate_succ, List.append_assoc, List.cons_append]
  exact cstr_append_nul _ _ (cstr_no_nul src)

/-- C3: for a string shorter than `BUFSIZE` and any values of the static
variables, the second of two calls of `set_status` with that string returns 0,
makes no display call and leaves the static variables as they are, holding the
string; over both calls `XStoreName` and `XFlush` are each called at most
once. -/
theorem set_status_twice (x₁ x₂ : XResult) (st : Publisher) (buf : List Char)
    (h : (cstr buf).length < BUFSIZE) :
    (set_status x₂ (set_status x₁ st buf).pub buf).ret = 0 ∧
    (set_status x₂ (set_status x₁ st buf).pub buf).calls = [] ∧
    (set_status x₂ (set_status x₁ st buf).pub buf).pub = (set_status x₁ st buf).pub ∧
    cstr (set_status x₁ st buf).pub.prev_buf = cstr buf ∧
    (store_name_calls ((set_status x₁ st buf).calls ++
        (set_status x₂ (set_status x₁ st buf).pub buf).calls)).length ≤ 1 ∧
    (((set_status x₁ st buf).calls ++
        (set_status x₂ (set_status x₁ st buf).pub buf).calls).count XCall.XFlush) ≤ 1 := by
  have hset : (set_status x₁ st buf).pub.prev_buf_set ≠ 0 := by
    unfold set_status
    by_cases h0 : st.prev_buf_set = 0 <;> simp only [h0, if_true, if_false] <;>
      split_ifs <;> simp_all
  have hprev : cstr (set_status x₁ st buf).pub.prev_buf = cstr buf := by
    unfold set_status
    by_cases h0 : st.prev_buf_set = 0 <;> simp only [h0, if_true, if_false] <;>
      split_ifs with h1 <;> first | exact h1.symm | exact cstr_strncpy _ _ _ h
  have hcalls : (store_name_calls (set_status x₁ st buf).calls).length ≤ 1 ∧
      (set_status x₁ st buf).calls.count XCall.XFlush ≤ 1 := by
    unfold set_status
    by_cases h0 : st.prev_buf_set = 0 <;> simp only [h0, if_true, if_false] <;>
      split_ifs <;> simp [store_name_calls]
  have hsecond : set_status x₂ (set_status x₁ st buf).pub buf =
      { ret := 0, pub := (set_status x₁ st buf).pub, calls := [] } := by
    generalize (set_status x₁ st buf).pub = p at hset hprev
    unfold set_status
    simp [hset, hprev]
  rw [hsecond]
  simp only [List.append_nil]
  exact ⟨trivial, trivial, trivial, hprev, hcalls.1, hcalls.2⟩

/-- Witness for C3: the string `"c"` published twice, starting from the
static variables as they are at start-up (`prev_buf_set = 0`): the first call
reaches the display, the second returns 0 without a display call. -/
theorem set_status_twice_witness :
    (cstr ['c', NUL]).length < BUFSIZE ∧
    (set_status { store_name := 0, flush := 0 }
      { prev_buf := [NUL], prev_buf_set := 0 } ['c', NUL]).calls =
        [XCall.XStoreName ['c'], XCall.XFlush] ∧
    (set_status { store_name := 0, flush := 0 }
      (set_status { store_name := 0, flush := 0 }
        { prev_buf := [NUL], prev_buf_set := 0 } ['c', NUL]).pub ['c', NUL]).ret = 0 ∧
    (set_status { store_name := 0, flush := 0 }
      (set_status { store_name := 0, flush := 0 }
        { prev_buf := [NUL], prev_buf_set := 0 } ['c', NUL]).pub ['c', NUL]).calls = [] :=
  ⟨by decide, by decide,
    (set_status_twice { store_name := 0, flush := 0 } { store_name := 0, flush := 0 }
      { prev_buf := [NUL], prev_buf_set := 0 } ['c', NUL] (by decide)).1,
    (set_status_twice { store_name := 0, flush := 0 } { store_name := 0, flush := 0 }
      { prev_buf := [NUL], prev_buf_set := 0 } ['c', NUL] (by decide)).2.1⟩

/-! ## Lemmas on pipes and buffers -/

theorem clear_pipe_loop_empty (fuel : Nat) (pipe : List Char) (h : pipe.length ≤ fuel) :
    clear_pipe_loop fuel pipe = [] := by
  induction fuel generalizing pipe with
  | zero => simpa [clear_pipe_loop] using h
  | succ fuel ih =>
    unfold clear_pipe_loop
    by_cases hp : pipe = []
    · simp [sys_read, hp]
    · have hpos : 0 < pipe.length := List.length_pos.mpr hp
      have hr : (sys_read pipe PIPE_BUF).r > 0 := by
        simp only [sys_read, hp, if_false, List.length_take, PIPE_BUF]
        omega
      have hrest : (sys_read pipe PIPE_BUF).rest = pipe.drop PIPE_BUF := by
        simp [sys_read, hp]
      rw [if_pos hr, hrest]
      apply ih
      simp only [List.length_drop, PIPE_BUF]
      omega

/-- The function `clear_pipe` leaves the pipe empty. -/
theorem clear_pipe_eq (pipe : List Char) : clear_pipe pipe = [] :=
  clear_pipe_loop_empty _ _ (Nat.le_refl _)

/-- On a pipe `read_field` stores the first `PIPE_BUF - 1` queued bytes in the
zeroed buffer; the branch for other values of `errno` is not taken. -/
theorem read_field_eq (pipe : List Char) :
    read_field pipe =
      (pipe.take (PIPE_BUF - 1) ++
          List.replicate (PIPE_BUF - (pipe.take (PIPE_BUF - 1)).length) NUL,
        pipe.drop (PIPE_BUF - 1)) := by
  unfold read_field
  by_cases hp : pipe = []
  · subst hp
    simp [sys_read, store, memset_zero, EAGAIN]
  · have hnn : ¬ ((((pipe.take (PIPE_BUF - 1)).length : Nat) : Int) < 0) := by omega
    simp only [sys_read, hp, if_false, store, memset_zero, List.drop_replicate, hnn, false_and]

theorem cstr_append_nul_left (a rest : List Char) : cstr (a ++ NUL :: rest) = cstr a := by
  induction a with
  | nil => simp [cstr]
  | cons x xs ih =>
    unfold cstr at ih ⊢
    simp only [List.cons_append, List.takeWhile_cons]
    split_ifs
    · rw [ih]
    · rfl

theorem cstr_read_field (pipe : List Char) :
    cstr (read_field pipe).1 = cstr (pipe.take (PIPE_BUF - 1)) := by
  rw [read_field_eq]
  have hlen : (pipe.take (PIPE_BUF - 1)).length ≤ PIPE_BUF - 1 := by
    simp only [List.length_take]
    omega
  obtain ⟨m, hm⟩ : ∃ m, PIPE_BUF - (pipe.take (PIPE_BUF - 1)).length = m + 1 :=
    ⟨PIPE_BUF - (pipe.take (PIPE_BUF - 1)).length - 1, by
      have : 0 < PIPE_BUF := by decide
      omega⟩
  simp only [hm, List.replicate_succ]
  exact cstr_append_nul_left _ _

theorem cstr_strcpy_error (dst : List Char) : cstr (strcpy dst error_str) = error_str := by
  unfold strcpy
  apply cstr_append_nul
  decide

theorem reap_loop_apply (FCNT : Nat) (pid status : Int) (states : Nat → State) (i : Nat) :
    reap_loop FCNT pid status states i =
      if i < FCNT then reap_field pid status (states i) else states i := by
  unfold reap_loop
  induction FCNT with
  | zero => simp
  | succ n ih =>
    rw [List.range_succ, List.foldl_append]
    simp only [List.foldl_cons, List.foldl_nil]
    by_cases hin : i = n
    · subst hin
      have hlt : ¬ i < i := Nat.lt_irrefl i
      have := ih
      simp only [hlt, if_false] at this
      simp [Function.update_same, this]
    · rw [Function.update_noteq hin, ih]
      by_cases hlt : i < n
      · have : i < n + 1 := by omega
        simp [hlt, this]
      · have : ¬ i < n + 1 := by omega
        simp [hlt, this]

/-- A field whose child `p` ended by `exit(r)` with `"<error>"` queued in the
pipe holds `"<error>"` once the child is collected, whatever `r` is. -/
theorem handle_sigchld_after_exit (FCNT : Nat) (p r : Int) (states : Nat → State) (i : Nat)
    (hi : i < FCNT) (hp : 0 < p) (hpid : (states i).pid = p)
    (hpipe : (states i).pipe = error_str) :
    cstr (handle_sigchld FCNT [(p, exit_status r)] states i).buf = error_str ∧
    (handle_sigchld FCNT [(p, exit_status r)] states i).pid = 0 := by
  have hp' : p > 0 := hp
  have hone : handle_sigchld FCNT [(p, exit_status r)] states =
      reap_loop FCNT p (exit_status r) states := by
    simp [handle_sigchld, hp']
  rw [hone, reap_loop_apply, if_pos hi]
  unfold reap_field
  simp only [hpid, ne_eq, not_true_eq_false, if_false]
  split_ifs
  · refine ⟨?_, rfl⟩
    simp only
    rw [cstr_read_field, hpipe]
    decide
  · exact ⟨cstr_strcpy_error _, rfl⟩

/-! ## Theorems on handle_sigchld -/

/-- C7: for a child with pid `p > 0` and wait status `st` that `waitpid` hands
to `handle_sigchld`, the loop goes on with the array changed as follows.  A
field `i < FCNT` whose pid is `p` gets pid 0 and, when `WEXITSTATUS(st)` is not
0, the string `"<error>"`; otherwise its buffer is zeroed and receives the first
`PIPE_BUF - 1` bytes queued in its pipe (none for an empty pipe).  A field
whose pid differs from `p` is unchanged, so the array is unchanged when no
field has pid `p`. -/
theorem handle_sigchld_reaps_child (FCNT : Nat) (states : Nat → State) (p st : Int)
    (rest : List (Int × Int)) (hp : 0 < p) :
    handle_sigchld FCNT ((p, st) :: rest) states =
      handle_sigchld FCNT rest (handle_sigchld FCNT [(p, st)] states) ∧
    (∀ i, i < FCNT → (states i).pid = p →
      (handle_sigchld FCNT [(p, st)] states i).pid = 0 ∧
      (WEXITSTATUS st ≠ 0 →
        cstr (handle_sigchld FCNT [(p, st)] states i).buf = error_str) ∧
      (WEXITSTATUS st = 0 →
        (handle_sigchld FCNT [(p, st)] states i).buf =
          (states i).pipe.take (PIPE_BUF - 1) ++
            List.replicate (PIPE_BUF - ((states i).pipe.take (PIPE_BUF - 1)).length) NUL ∧
        ((states i).pipe.take (PIPE_BUF - 1)).length ≤ PIPE_BUF - 1 ∧
        cstr (handle_sigchld FCNT [(p, st)] states i).buf =
          cstr ((states i).pipe.take (PIPE_BUF - 1)) ∧
        ((states i).pipe = [] → cstr (handle_sigchld FCNT [(p, st)] states i).buf = []))) ∧
    (∀ i, (states i).pid ≠ p → handle_sigchld FCNT [(p, st)] states i = states i) ∧
    ((∀ i, i < FCNT → (states i).pid ≠ p) → handle_sigchld FCNT [(p, st)] states = states) := by
  have hp' : p > 0 := hp
  have hone : handle_sigchld FCNT [(p, st)] states = reap_loop FCNT p st states := by
    simp [handle_sigchld, hp']
  refine ⟨?_, ?_, ?_, ?_⟩
  · rw [hone]
    simp [handle_sigchld, hp']
  · intro i hi hpid
    rw [hone, reap_loop_apply, if_pos hi]
    refine ⟨?_, ?_, ?_⟩
    · unfold reap_field
      simp only [hpid, ne_eq, not_true_eq_false, if_false]
      split_ifs <;> rfl
    · intro hst
      unfold reap_field
      simp only [hpid, ne_eq, not_true_eq_false, if_false, hst]
      exact cstr_strcpy_error _
    · intro hst
      have hbuf : (reap_field p st (states i)).buf = (read_field (states i).pipe).1 := by
        unfold reap_field
        simp only [hpid, ne_eq, not_true_eq_false, if_false, hst, if_true]
      rw [hbuf]
      refine ⟨?_, ?_, cstr_read_field _, ?_⟩
      · rw [read_field_eq]
      · simp only [List.length_take]
        omega
      · intro hempty
        rw [cstr_read_field, hempty]
        rfl
  · intro i hpid
    rw [hone, reap_loop_apply]
    split_ifs
    · unfold reap_field
      simp [hpid]
    · rfl
  · intro hall
    rw [hone]
    funext i
    rw [reap_loop_apply]
    split_ifs with hi
    · unfold reap_field
      simp [hall i hi]
    · rfl

/-- Witness for C7: when the child 1234 of field 0 ends with status 0 its
output `"mail: 2\n"` is read into the buffer, when it ends with exit code 1 the
buffer holds `"<error>"`; the pid becomes 0 and field 1 is unchanged. -/
theorem handle_sigchld_reaps_child_witness :
    (0 : Int) < 1234 ∧
    cstr (handle_sigchld 3 [(1234, 0)] running_states 0).buf =
      cstr ((running_states 0).pipe.take (PIPE_BUF - 1)) ∧
    (handle_sigchld 3 [(1234, 0)] running_states 0).pid = 0 ∧
    cstr (handle_sigchld 3 [(1234, 256)] running_states 0).buf = error_str ∧
    handle_sigchld 3 [(1234, 0)] running_states 1 = running_states 1 :=
  ⟨by decide,
    (((handle_sigchld_reaps_child 3 running_states 1234 0 [] (by decide)).2.1 0
      (by decide) (by decide)).2.2 (by decide)).2.2.1,
    ((handle_sigchld_reaps_child 3 running_states 1234 0 [] (by decide)).2.1 0
      (by decide) (by decide)).1,
    ((handle_sigchld_reaps_child 3 running_states 1234 256 [] (by decide)).2.1 0
      (by decide) (by decide)).2.1 (by decide),
    (handle_sigchld_reaps_child 3 running_states 1234 0 [] (by decide)).2.2.1 1 (by decide)⟩

/-! ## Theorems on run_field -/

/-- C5: let the `run` of field `i` return a value `r ≠ 0` while the field is
not Running.  If the field is synchronous, `run_field` leaves `"<error>"` in its
buffer and its pid not positive.  If it is asynchronous, the child (`fork`
returns 0) ends by `exit(r)` with exactly `"<error>"` queued in the pipe, the
parent (`fork` returns `p > 0`) records `p`, and once `handle_sigchld` collects
`p` with the wait status of `exit(r)` the buffer holds `"<error>"` and the pid
is 0, also when the low 8 bits of `r` are zero.  With the pid not positive a
forced pass calls `run_field` for the field again. -/
theorem run_failure_gives_error (FCNT : Nat) (fields : Nat → Field) (i : Nat) (w : Proc)
    (run : RunResult) (hi : i < FCNT) (hrun : (fields i).run = some run)
    (hret : run.ret ≠ 0) (hidle : (w.states i).pid ≤ 0) :
    (∀ fork, (fields i).synchronous ≠ 0 →
      cstr ((run_field fields fork i w).states i).buf = error_str ∧
      ((run_field fields fork i w).states i).pid ≤ 0) ∧
    (∀ forkP forkC p, (fields i).synchronous = 0 → forkP i = p → 0 < p → forkC i = 0 →
      (run_field fields forkC i w).exited = some run.ret ∧
      ((run_field fields forkC i w).states i).pipe = error_str ∧
      ((run_field fields forkP i w).states i).pid = p ∧
      (run_field fields forkP i w).exited = w.exited ∧
      cstr (handle_sigchld FCNT [(p, exit_status run.ret)]
        (Function.update (run_field fields forkP i w).states i
          { (run_field fields forkP i w).states i with
            pipe := ((run_field fields forkC i w).states i).pipe }) i).buf = error_str ∧
      (handle_sigchld FCNT [(p, exit_status run.ret)]
        (Function.update (run_field fields forkP i w).states i
          { (run_field fields forkP i w).states i with
            pipe := ((run_field fields forkC i w).states i).pipe }) i).pid = 0) ∧
    (∀ (w' : Proc) pollfds fork force_trigger poll_trigger, (w'.states i).pid ≤ 0 →
      force_trigger ≠ 0 →
      trigger_body fields pollfds fork force_trigger poll_trigger i w' =
        run_field fields fork i w') := by
  have hnot : ¬ (w.states i).pid > 0 := by omega
  refine ⟨?_, ?_, ?_⟩
  · intro fork hsync
    have hstate : (run_field fields fork i w).states i =
        { w.states i with pipe := clear_pipe (w.states i).pipe ++ run.out,
                          buf := strcpy (w.states i).buf error_str } := by
      unfold run_field
      simp [hrun, hnot, hsync, hret]
    rw [hstate]
    exact ⟨cstr_strcpy_error _, hidle⟩
  · intro forkP forkC p hasync hP hp hC
    have hp' : p > 0 := hp
    have hpn : ¬ p < 0 := by omega
    have hchild : (run_field fields forkC i w).exited = some run.ret ∧
        ((run_field fields forkC i w).states i).pipe = error_str := by
      unfold run_field
      simp [hrun, hnot, hasync, hC, hret, clear_pipe_eq]
    have hparent : (run_field fields forkP i w).states i = { w.states i with pid := p } ∧
        (run_field fields forkP i w).exited = w.exited := by
      unfold run_field
      simp [hrun, hnot, hasync, hP, hp']
    have hreap := handle_sigchld_after_exit FCNT p run.ret
      (Function.update (run_field fields forkP i w).states i
        { (run_field fields forkP i w).states i with
          pipe := ((run_field fields forkC i w).states i).pipe }) i hi hp
      (by simp [hparent.1]) (by simp [hchild.2])
    refine ⟨hchild.1, hchild.2, ?_, hparent.2, hreap.1, hreap.2⟩
    rw [hparent.1]
  · intro w' pollfds fork force_trigger poll_trigger hidle' hforce
    have hnot' : ¬ (w'.states i).pid > 0 := by omega
    unfold trigger_body
    simp [hnot', hforce]

/-! ## Lemmas on the trigger step -/

theorem run_field_trace (fields : Nat → Field) (fork : Nat → Int) (i : Nat) (w : Proc) :
    (run_field fields fork i w).trace =
      w.trace ++ run_field_events (fields i) (w.states i) i := by
  unfold run_field run_field_events
  cases hrun : (fields i).run with
  | none => simp
  | some run =>
    simp only
    split_ifs <;> simp

theorem run_field_other (fields : Nat → Field) (fork : Nat → Int) (i j : Nat) (w : Proc)
    (h : j ≠ i) : (run_field fields fork i w).states j = w.states j := by
  unfold run_field
  cases hrun : (fields i).run with
  | none => simp
  | some run =>
    simp only
    split_ifs <;> simp [Function.update_noteq h]

theorem run_field_exited (fields : Nat → Field) (fork : Nat → Int) (i : Nat) (w : Proc)
    (h : fork i ≠ 0) : (run_field fields fork i w).exited = w.exited := by
  unfold run_field
  cases hrun : (fields i).run with
  | none => simp
  | some run =>
    simp only
    split_ifs <;> first | rfl | (exfalso; omega)

theorem run_field_running (fields : Nat → Field) (fork : Nat → Int) (i : Nat) (w : Proc)
    (h : 0 < (w.states i).pid) :
    (run_field fields fork i w).states = w.states ∧
    (run_field fields fork i w).trace = w.trace ++ [Ev.run_field i] ∧
    (run_field fields fork i w).exited = w.exited := by
  have h' : (w.states i).pid > 0 := h
  unfold run_field
  cases hrun : (fields i).run with
  | none => simp
  | some run => simp [h']

theorem run_field_async_buf (fields : Nat → Field) (fork : Nat → Int) (i : Nat) (w : Proc)
    (hasync : (fields i).synchronous = 0) (hfork : 0 ≤ fork i) :
    ((run_field fields fork i w).states i).buf = (w.states i).buf := by
  have hneg : ¬ fork i < 0 := by omega
  unfold run_field
  cases hrun : (fields i).run with
  | none => simp
  | some run =>
    simp only [hasync, ne_eq, not_true_eq_false, if_false, hneg]
    split_ifs <;> simp

theorem trigger_body_trace (fields : Nat → Field) (pollfds : Nat → Pollfd) (fork : Nat → Int)
    (force_trigger poll_trigger : Int) (i : Nat) (w : Proc) :
    (trigger_body fields pollfds fork force_trigger poll_trigger i w).trace =
      w.trace ++ body_events fields pollfds force_trigger poll_trigger w.states i := by
  unfold trigger_body body_events
  split_ifs <;> simp [run_field_trace]

theorem trigger_body_other (fields : Nat → Field) (pollfds : Nat → Pollfd) (fork : Nat → Int)
    (force_trigger poll_trigger : Int) (i j : Nat) (w : Proc) (h : j ≠ i) :
    (trigger_body fields pollfds fork force_trigger poll_trigger i w).states j = w.states j := by
  unfold trigger_body
  split_ifs <;> simp [run_field_other _ _ _ _ _ h]

theorem trigger_body_exited (fields : Nat → Field) (pollfds : Nat → Pollfd) (fork : Nat → Int)
    (force_trigger poll_trigger : Int) (i : Nat) (w : Proc) (h : fork i ≠ 0) :
    (trigger_body fields pollfds fork force_trigger poll_trigger i w).exited = w.exited := by
  unfold trigger_body
  split_ifs <;> simp [run_field_exited _ _ _ _ h]

theorem trigger_body_running (fields : Nat → Field) (pollfds : Nat → Pollfd) (fork : Nat → Int)
    (force_trigger poll_trigger : Int) (i : Nat) (w : Proc) (h : 0 < (w.states i).pid) :
    trigger_body fields pollfds fork force_trigger poll_trigger i w = w := by
  have h' : (w.states i).pid > 0 := h
  unfold trigger_body
  simp [h']

theorem trigger_fields_succ (n : Nat) (fields : Nat → Field) (pollfds : Nat → Pollfd)
    (fork : Nat → Int) (force_trigger poll_trigger : Int) (w : Proc) :
    trigger_fields (n + 1) fields pollfds fork force_trigger poll_trigger w =
      if (trigger_fields n fields pollfds fork force_trigger poll_trigger w).exited.isSome
      then trigger_fields n fields pollfds fork force_trigger poll_trigger w
      else trigger_body fields pollfds fork force_trigger poll_trigger n
        (trigger_fields n fields pollfds fork force_trigger poll_trigger w) := by
  unfold trigger_fields
  rw [List.range_succ, List.foldl_append]
  rfl

/-- A property of the process that every pass of the loop body keeps holds
after the loop. -/
theorem trigger_fields_invariant (P : Proc → Prop) (n : Nat) (fields : Nat → Field)
    (pollfds : Nat → Pollfd) (fork : Nat → Int) (force_trigger poll_trigger : Int) (w : Proc)
    (h0 : P w)
    (hstep : ∀ k w', P w' →
      P (trigger_body fields pollfds fork force_trigger poll_trigger k w')) :
    P (trigger_fields n fields pollfds fork force_trigger poll_trigger w) := by
  induction n with
  | zero => simpa [trigger_fields] using h0
  | succ n ih =>
    rw [trigger_fields_succ]
    split_ifs
    · exact ih
    · exact hstep n _ ih

/-- In the parent process the loop ends without `exit`, leaves the states from
index `n` on untouched, and records the calls of the fields `0 .. n-1` in
order. -/
theorem trigger_fields_parent (n : Nat) (fields : Nat → Field) (pollfds : Nat → Pollfd)
    (fork : Nat → Int) (force_trigger poll_trigger : Int) (w : Proc)
    (hw : w.exited = none) (hfork : ∀ j, j < n → fork j ≠ 0) :
    (trigger_fields n fields pollfds fork force_trigger poll_trigger w).exited = none ∧
    (∀ j, n ≤ j →
      (trigger_fields n fields pollfds fork force_trigger poll_trigger w).states j =
        w.states j) ∧
    (trigger_fields n fields pollfds fork force_trigger poll_trigger w).trace =
      w.trace ++
        (List.range n).flatMap (body_events fields pollfds force_trigger poll_trigger w.states) := by
  induction n with
  | zero => simp [trigger_fields, hw]
  | succ n ih =>
    obtain ⟨hex, hst, htr⟩ := ih (fun j hj => hfork j (by omega))
    rw [trigger_fields_succ]
    simp only [hex, Option.isSome_none, Bool.false_eq_true, if_false]
    refine ⟨?_, ?_, ?_⟩
    · rw [trigger_body_exited _ _ _ _ _ _ _ (hfork n (by omega)), hex]
    · intro j hj
      rw [trigger_body_other _ _ _ _ _ _ _ _ (by omega), hst j (by omega)]
    · rw [trigger_body_trace, htr, List.range_succ, List.flatMap_append, List.flatMap_singleton,
        List.append_assoc]
      congr 2
      unfold body_events
      rw [hst n (Nat.le_refl n)]

theorem run_calls_run_field_events (f : Field) (s : State) (i : Nat) :
    run_calls (run_field_events f s i) = [i] := by
  unfold run_field_events run_calls
  cases f.run with
  | none => simp
  | some run =>
    simp only
    split_ifs <;> simp

theorem run_calls_append (a b : List Ev) : run_calls (a ++ b) = run_calls a ++ run_calls b := by
  unfold run_calls
  rw [List.filterMap_append]

theorem run_calls_flatMap (ev : Nat → List Ev) (sel : Nat → Bool) (l : List Nat)
    (h : ∀ i, i ∈ l → run_calls (ev i) = if sel i then [i] else []) :
    run_calls (l.flatMap ev) = l.filter sel := by
  induction l with
  | nil => simp [run_calls]
  | cons x xs ih =>
    rw [List.flatMap_cons, run_calls_append, ih (fun i hi => h i (List.mem_cons_of_mem _ hi)),
      h x (List.mem_cons_self _ _), List.filter_cons]
    split_ifs <;> simp

theorem run_field_events_eq (f : Field) (s : State) (i : Nat) :
    ∃ tail, run_field_events f s i = Ev.run_field i :: tail ∧
      (∀ fd, Ev.clear_pipe fd ∉ tail) ∧ (tail = [] ∨ tail = [Ev.fork i]) := by
  unfold run_field_events
  cases f.run with
  | none => exact ⟨[], rfl, by simp, Or.inl rfl⟩
  | some run =>
    simp only
    split_ifs
    · exact ⟨[], rfl, by simp, Or.inl rfl⟩
    · exact ⟨[], rfl, by simp, Or.inl rfl⟩
    · exact ⟨[Ev.fork i], rfl, by simp, Or.inr rfl⟩

theorem mem_body_events (fields : Nat → Field) (pollfds : Nat → Pollfd)
    (force_trigger poll_trigger : Int) (states : Nat → State) (k : Nat) (e : Ev)
    (h : e ∈ body_events fields pollfds force_trigger poll_trigger states k) :
    e = Ev.run_field k ∨ e = Ev.fork k ∨ ∃ fd, e = Ev.clear_pipe fd := by
  obtain ⟨tail, htail, _, hcases⟩ := run_field_events_eq (fields k) (states k) k
  unfold body_events at h
  rw [htail] at h
  split_ifs at h <;> rcases hcases with ht | ht <;> subst ht <;> simp at h <;> aesop

theorem trigger_body_async_buf (fields : Nat → Field) (pollfds : Nat → Pollfd)
    (fork : Nat → Int) (force_trigger poll_trigger : Int) (i : Nat) (w : Proc)
    (hasync : (fields i).synchronous = 0) (hfork : 0 ≤ fork i) :
    ((trigger_body fields pollfds fork force_trigger poll_trigger i w).states i).buf =
      (w.states i).buf := by
  unfold trigger_body
  split_ifs
  · rfl
  · exact run_field_async_buf fields fork i w hasync hfork
  · exact run_field_async_buf fields fork i w hasync hfork
  · exact run_field_async_buf fields fork i _ hasync hfork
  · rfl

/-! ## Theorems on the trigger step -/

/-- C4: in one pass of the trigger step in the parent process, the calls of
`run_field` are, in ascending order of the index, those of the fields that are
not Running (pid not positive) when `force_trigger` is set, whatever their
`poll` flag; and, when `force_trigger` is clear, `poll_trigger` is set and no
`revents` is set, those of the fields that are not Running and have `poll`
set. -/
theorem trigger_selects_fields (FCNT : Nat) (fields : Nat → Field) (pollfds : Nat → Pollfd)
    (fork : Nat → Int) (force_trigger poll_trigger : Int) (w : Proc)
    (hw : w.exited = none) (hfork : ∀ j, j < FCNT → fork j ≠ 0) :
    (force_trigger ≠ 0 →
      run_calls (trigger_fields FCNT fields pollfds fork force_trigger poll_trigger w).trace =
        run_calls w.trace ++
          (List.range FCNT).filter (fun i => decide ((w.states i).pid ≤ 0))) ∧
    (force_trigger = 0 → poll_trigger ≠ 0 → (∀ i, i < FCNT → (pollfds i).revents = 0) →
      run_calls (trigger_fields FCNT fields pollfds fork force_trigger poll_trigger w).trace =
        run_calls w.trace ++
          (List.range FCNT).filter
            (fun i => decide ((w.states i).pid ≤ 0 ∧ (fields i).poll ≠ 0))) := by
  obtain ⟨_, _, htr⟩ :=
    trigger_fields_parent FCNT fields pollfds fork force_trigger poll_trigger w hw hfork
  rw [htr, run_calls_append]
  refine ⟨?_, ?_⟩
  · intro hforce
    congr 1
    apply run_calls_flatMap
    intro i _
    unfold body_events
    by_cases hpid : (w.states i).pid > 0
    · have : ¬ (w.states i).pid ≤ 0 := by omega
      simp [hpid, this, run_calls]
    · have : (w.states i).pid ≤ 0 := by omega
      simp [hpid, this, hforce, run_calls_run_field_events]
  · intro hforce hpoll hrev
    congr 1
    apply run_calls_flatMap
    intro i hi
    have hr := hrev i (List.mem_range.mp hi)
    unfold body_events
    by_cases hpid : (w.states i).pid > 0
    · have : ¬ (w.states i).pid ≤ 0 := by omega
      simp [hpid, this, run_calls]
    · have : (w.states i).pid ≤ 0 := by omega
      by_cases hp : (fields i).poll = 0
      · simp [hpid, this, hforce, hpoll, hp, hr, run_calls]
      · simp [hpid, this, hforce, hpoll, hp, run_calls_run_field_events]

/-- Witness for C4: with the table of `config.def.h`, a forced pass from the
initial states calls `run_field` for the fields 0, 1, 2, and a poll pass without
watch events calls it for field 2 only. -/
theorem trigger_selects_fields_witness :
    run_calls (trigger_fields 3 config_fields quiet_pollfds fork_ok 1 0 initial_proc).trace =
      [0, 1, 2] ∧
    run_calls (trigger_fields 3 config_fields quiet_pollfds fork_ok 0 1 initial_proc).trace =
      [2] :=
  ⟨((trigger_selects_fields 3 config_fields quiet_pollfds fork_ok 1 0 initial_proc rfl
      (fun _ _ => by simp [fork_ok])).1 (by decide)).trans (by decide),
    ((trigger_selects_fields 3 config_fields quiet_pollfds fork_ok 0 1 initial_proc rfl
      (fun _ _ => by simp [fork_ok])).2 rfl (by decide)
      (fun i hi => by
        interval_cases i <;> rfl)).trans (by decide)⟩

/-- C6, as stated, fails: field 0 of `config.def.h` is asynchronous, and when
`fork` fails `run_field(0)` changes its buffer from the empty string to
`"<error>"`. -/
theorem run_field_fork_failure_changes_buf :
    (config_fields 0).synchronous = 0 ∧
    cstr (initial_proc.states 0).buf = [] ∧
    cstr ((run_field config_fields fork_fails 0 initial_proc).states 0).buf = error_str ∧
    ((run_field config_fields fork_fails 0 initial_proc).states 0).buf ≠
      (initial_proc.states 0).buf := by
  decide

/-- C6, amended: for an asynchronous field `i`, `run_field(i)` and the trigger
step leave `states[i].buf` as it is unless `fork` fails; when `fork` fails for a
field that is not Running, `run_field(i)` writes `"<error>"` and leaves the pid
negative.  `handle_sigchld` changes the state of a field only for a child whose
pid the field records.  If the field is Running (pid positive), `run_field(i)`
changes no state and calls no `fork`, and the trigger step leaves `states[i]`
as it is, calls neither `run_field(i)` nor `fork` for it, whatever
`force_trigger`, `poll_trigger` and `pollfds` are. -/
theorem async_buffer_and_running (FCNT : Nat) (fields : Nat → Field) (pollfds : Nat → Pollfd)
    (fork : Nat → Int) (force_trigger poll_trigger : Int) (w : Proc) (i : Nat) :
    ((fields i).synchronous = 0 → 0 ≤ fork i →
      ((run_field fields fork i w).states i).buf = (w.states i).buf ∧
      ((trigger_fields FCNT fields pollfds fork force_trigger poll_trigger w).states i).buf =
        (w.states i).buf) ∧
    ((fields i).synchronous = 0 → fork i < 0 → (w.states i).pid ≤ 0 →
      (fields i).run ≠ none →
      cstr ((run_field fields fork i w).states i).buf = error_str ∧
      ((run_field fields fork i w).states i).pid < 0) ∧
    (∀ p st, (w.states i).pid ≠ p → handle_sigchld FCNT [(p, st)] w.states i = w.states i) ∧
    (0 < (w.states i).pid →
      (run_field fields fork i w).states = w.states ∧
      (run_field fields fork i w).trace = w.trace ++ [Ev.run_field i] ∧
      (trigger_fields FCNT fields pollfds fork force_trigger poll_trigger w).states i =
        w.states i ∧
      (Ev.fork i ∉ w.trace →
        Ev.fork i ∉
          (trigger_fields FCNT fields pollfds fork force_trigger poll_trigger w).trace) ∧
      (Ev.run_field i ∉ w.trace →
        Ev.run_field i ∉
          (trigger_fields FCNT fields pollfds fork force_trigger poll_trigger w).trace)) := by
  refine ⟨?_, ?_, ?_, ?_⟩
  · intro hasync hfork
    refine ⟨run_field_async_buf fields fork i w hasync hfork, ?_⟩
    apply trigger_fields_invariant (fun w' => (w'.states i).buf = (w.states i).buf)
    · rfl
    · intro k w' hP
      by_cases hk : k = i
      · subst hk
        show ((trigger_body fields pollfds fork force_trigger poll_trigger k w').states k).buf =
          (w.states k).buf
        rw [trigger_body_async_buf _ _ _ _ _ _ _ hasync hfork]
        exact hP
      · show ((trigger_body fields pollfds fork force_trigger poll_trigger k w').states i).buf =
          (w.states i).buf
        rw [trigger_body_other _ _ _ _ _ _ _ _ (Ne.symm hk)]
        exact hP
  · intro hasync hfork hidle hrun
    obtain ⟨run, hrun'⟩ := Option.ne_none_iff_exists'.mp hrun
    have hnot : ¬ (w.states i).pid > 0 := by omega
    have hnpos : ¬ fork i > 0 := by omega
    have hstate : (run_field fields fork i w).states i =
        { w.states i with pid := fork i, buf := strcpy (w.states i).buf error_str } := by
      unfold run_field
      simp [hrun', hnot, hasync, hnpos, hfork]
    rw [hstate]
    exact ⟨cstr_strcpy_error _, hfork⟩
  · intro p st hpid
    unfold handle_sigchld
    split_ifs
    · simp only [handle_sigchld]
      rw [reap_loop_apply]
      split_ifs
      · unfold reap_field
        simp [hpid]
      · rfl
    · rfl
  · intro hrunning
    obtain ⟨h1, h2, _⟩ := run_field_running fields fork i w hrunning
    refine ⟨h1, h2, ?_⟩
    have hinv := trigger_fields_invariant
      (fun w' => w'.states i = w.states i ∧
        (Ev.fork i ∉ w.trace → Ev.fork i ∉ w'.trace) ∧
        (Ev.run_field i ∉ w.trace → Ev.run_field i ∉ w'.trace))
      FCNT fields pollfds fork force_trigger poll_trigger w ⟨rfl, id, id⟩
      (by
        intro k w' hP
        obtain ⟨hs, hf, hr⟩ := hP
        by_cases hk : k = i
        · subst hk
          rw [trigger_body_running _ _ _ _ _ _ _ (by rw [hs]; exact hrunning)]
          exact ⟨hs, hf, hr⟩
        · refine ⟨?_, ?_, ?_⟩
          · rw [trigger_body_other _ _ _ _ _ _ _ _ (Ne.symm hk)]
            exact hs
          · intro hnot hmem
            rw [trigger_body_trace] at hmem
            rcases List.mem_append.mp hmem with hm | hm
            · exact hf hnot hm
            · rcases mem_body_events _ _ _ _ _ _ _ hm with h | h | ⟨fd, h⟩
              · cases h
              · exact hk (by cases h; rfl)
              · cases h
          · intro hnot hmem
            rw [trigger_body_trace] at hmem
            rcases List.mem_append.mp hmem with hm | hm
            · exact hr hnot hm
            · rcases mem_body_events _ _ _ _ _ _ _ hm with h | h | ⟨fd, h⟩
              · exact hk (by cases h; rfl)
              · cases h
              · cases h)
    exact hinv

/-- Witness for C6, amended: `run_field(0)` leaves the buffer of the
asynchronous field 0 as it is when `fork` succeeds and writes `"<error>"` when
`fork` fails; collecting another child, 99, leaves the field as it is; while
the child 1234 of field 0 runs, a forced pass leaves `states[0]` as it is and
calls `run_field` for the fields 1 and 2 only. -/
theorem async_buffer_and_running_witness :
    (config_fields 0).synchronous = 0 ∧
    ((run_field config_fields fork_ok 0 initial_proc).states 0).buf =
      (initial_proc.states 0).buf ∧
    cstr ((run_field config_fields fork_fails 0 initial_proc).states 0).buf = error_str ∧
    handle_sigchld 3 [(99, 0)] running_proc.states 0 = running_proc.states 0 ∧
    0 < (running_proc.states 0).pid ∧
    (trigger_fields 3 config_fields sample_pollfds fork_ok 1 1 running_proc).states 0 =
      running_proc.states 0 ∧
    (trigger_fields 3 config_fields sample_pollfds fork_ok 1 1 running_proc).trace =
      [Ev.run_field 1, Ev.run_field 2] :=
  ⟨by decide,
    ((async_buffer_and_running 3 config_fields sample_pollfds fork_ok 1 1 initial_proc 0).1
      (by decide) (by decide)).1,
    ((async_buffer_and_running 3 config_fields sample_pollfds fork_fails 1 1 initial_proc 0).2.1
      (by decide) (by decide) (by decide) (by decide)).1,
    (async_buffer_and_running 3 config_fields sample_pollfds fork_ok 1 1 running_proc 0).2.2.1
      99 0 (by decide),
    by decide,
    ((async_buffer_and_running 3 config_fields sample_pollfds fork_ok 1 1 running_proc 0).2.2.2
      (by decide)).2.2.1,
    by decide⟩

/-- Witness for C5: with every `run` failing, the synchronous field 1 holds
`"<error>"` after `run_field(1)`; the asynchronous field 0 returns 256, whose
low 8 bits are zero: its child exits, the parent collects it and the buffer
holds `"<error>"`; a forced pass then calls `run_field(0)` again. -/
theorem run_failure_gives_error_witness :
    (256 : Int) ≠ 0 ∧ WEXITSTATUS (exit_status 256) = 0 ∧
    cstr ((run_field failing_fields fork_ok 1 initial_proc).states 1).buf = error_str ∧
    (run_field failing_fields fork_child 0 initial_proc).exited = some 256 ∧
    cstr (handle_sigchld 3 [(1234, exit_status 256)]
      (Function.update (run_field failing_fields fork_ok 0 initial_proc).states 0
        { (run_field failing_fields fork_ok 0 initial_proc).states 0 with
          pipe := ((run_field failing_fields fork_child 0 initial_proc).states 0).pipe })
      0).buf = error_str ∧
    trigger_body failing_fields quiet_pollfds fork_ok 1 0 0 initial_proc =
      run_field failing_fields fork_ok 0 initial_proc :=
  ⟨by decide, by decide,
    ((run_failure_gives_error 3 failing_fields 1 initial_proc { ret := 256, out := [] }
      (by decide) (by decide) (by decide) (by decide)).1 fork_ok (by decide)).1,
    ((run_failure_gives_error 3 failing_fields 0 initial_proc { ret := 256, out := [] }
      (by decide) (by decide) (by decide) (by decide)).2.1 fork_ok fork_child 1234
      (by decide) (by decide) (by decide) (by decide)).1,
    ((run_failure_gives_error 3 failing_fields 0 initial_proc { ret := 256, out := [] }
      (by decide) (by decide) (by decide) (by decide)).2.1 fork_ok fork_child 1234
      (by decide) (by decide) (by decide) (by decide)).2.2.2.2.1,
    (run_failure_gives_error 3 failing_fields 0 initial_proc { ret := 256, out := [] }
      (by decide) (by decide) (by decide) (by decide)).2.2 initial_proc quiet_pollfds fork_ok
      1 0 (by decide) (by decide)⟩

end Dwmstatus
